import Mathlib

/-!
Shallow embedding of `src/index.ts` (micaelbergeron/ts-events-delegator-poc).

The source defines two components communicating over a single EventEmitter:

* `DelegatePool` (caller side): a `Set` of callable delegate identifiers and a
  record `pool` mapping reply identifiers (`rid`) to `Deferred<any[]>` cells.
* `DelegatorPool` (callee side): a record `pool` mapping function identifiers to
  handlers, and a record `uponRegister` of registration waiters.

Event emission goes through `emit`, which defers the actual `emitter.emit` to a
microtask (`queueMicrotask`), so delivery never happens synchronously with the
emitting call.  We model identifiers as natural numbers (the source uses v4
uuids; all the code needs is freshness, which we expose as explicit `fresh`
parameters), JavaScript dynamic values as an inductive `JsValue`, thrown
exceptions as `Except JsError`, and the record objects used as maps as
association lists with JavaScript record-indexing semantics (`recGet`,
`recSet`).  The global microtask queue and the subscriptions wired in the two
constructors are modelled by `World.step`.
-/

namespace DelegatorSpec

/-- Identifiers (`uuid` in the source) are opaque tokens; we model them as
naturals and pass freshness explicitly where the source calls `uuidgen()`. -/
abbrev Uuid := Nat

/-- Dynamic JavaScript values as they flow through this program: numbers,
strings, arrays, `undefined`, and pending promises.  `promise v` stands for a
promise object that is still pending and would eventually settle to `v`; the
source never awaits inside `handleDelegateRequest`, so such a value can flow
into a reply payload unchanged. -/
inductive JsValue where
  | num : Int → JsValue
  | str : String → JsValue
  | arr : List JsValue → JsValue
  | promise : JsValue → JsValue
  | undef : JsValue

/-- Whether a value is a still-pending promise object. -/
def JsValue.isPromise : JsValue → Bool
  | .promise _ => true
  | _ => false

/-- Thrown JavaScript exceptions: `thrown msg` models `throw new Error(msg)`;
`typeError prop` models the `TypeError` raised by reading property `prop` of
`undefined` (as happens on a failed record lookup in the source). -/
inductive JsError where
  | thrown (msg : String)
  | typeError (prop : String)
deriving DecidableEq, Repr

/-- The `Deferred<T>` class of the source: a single-assignment cell wrapping a
promise.  `settled = none` is a pending cell; `some (.ok v)` a resolved one;
`some (.error e)` a rejected one.  Resolving or rejecting an already-settled
cell is a no-op, matching the underlying `Promise` executor semantics. -/
structure Deferred (α : Type) where
  settled : Option (Except JsError α)

/-- A freshly constructed `new Deferred<T>()`. -/
def Deferred.unsettled {α : Type} : Deferred α := ⟨none⟩

/-- `Deferred.resolve`: settles the cell with a value; no-op once settled. -/
def Deferred.resolve {α : Type} (d : Deferred α) (v : α) : Deferred α :=
  match d.settled with
  | some _ => d
  | none => ⟨some (Except.ok v)⟩

/-- `Deferred.reject`: settles the cell with an error; no-op once settled.
(The source declares it; no code path in the core ever calls it.) -/
def Deferred.reject {α : Type} (d : Deferred α) (e : JsError) : Deferred α :=
  match d.settled with
  | some _ => d
  | none => ⟨some (Except.error e)⟩

/-- `DelegateRequest = { id, rid, args }`: a call-request event payload. -/
structure DelegateRequest where
  id : Uuid
  rid : Uuid
  args : List JsValue

/-- `DelegateReply = { rid, args }`: a call-reply event payload.  The source
types `args` as `any[]` but stores the handler's raw return value in it, so we
model it as a single dynamic value. -/
structure DelegateReply where
  rid : Uuid
  args : JsValue

/-- `RegisterRequest = { senderId, delegatorId }`; `UnregisterRequest` is the
same shape in the source. -/
structure RegisterRequest where
  senderId : Uuid
  delegatorId : Uuid
deriving DecidableEq, Repr

/-- `type UnregisterRequest = RegisterRequest`. -/
abbrev UnregisterRequest := RegisterRequest

/-- `RegisterReply = { delegatorId }`. -/
structure RegisterReply where
  delegatorId : Uuid
deriving DecidableEq, Repr

/-- Record indexing `rec[k]` on a `Record<uuid, T>` object, modelled as an
association list: returns `some` of the first binding for `k`, else `none`
(JavaScript `undefined`). -/
def recGet {β : Type} (k : Uuid) : List (Uuid × β) → Option β
  | [] => none
  | (k', v) :: rest => if k = k' then some v else recGet k rest

/-- Record assignment `rec[k] = v`: overwrites the binding for `k` if present,
otherwise appends a new binding (JavaScript insertion order). -/
def recSet {β : Type} (k : Uuid) (v : β) : List (Uuid × β) → List (Uuid × β)
  | [] => [(k, v)]
  | (k', v') :: rest =>
    if k = k' then (k, v) :: rest else (k', v') :: recSet k v rest

/-- A registered handler (`Function` stored in `DelegatorPool.pool`): it takes
the request's argument list and returns its raw result — a `JsValue.promise`
when the underlying function is asynchronous. -/
abbrev Handler := List JsValue → JsValue

/-- The five event kinds carried by the shared emitter:
`delegate`, `@delegate`, `register`, `@register`, `unregister`. -/
inductive Event where
  | delegateReq : DelegateRequest → Event
  | delegateReply : DelegateReply → Event
  | registerReq : RegisterRequest → Event
  | registerReply : RegisterReply → Event
  | unregisterReq : UnregisterRequest → Event

/-- Caller-side `DelegatePool`: the `Set` of registered delegate ids and the
pending-call record mapping reply ids to deferred cells. -/
structure DelegatePool where
  delegates : Finset Uuid
  pool : List (Uuid × Deferred JsValue)

/-- `DelegatePool.create(id)`: adds `id` to the delegate set (the returned
closure just calls `delegate`, so the state effect is the set insertion). -/
def DelegatePool.create (s : DelegatePool) (id : Uuid) : DelegatePool :=
  { s with delegates := insert id s.delegates }

/-- `DelegatePool.delegate(id, ...args)`: throws if `id` is not in the delegate
set; otherwise generates a fresh reply id (passed in as `fresh`), stores a new
`Deferred` under it, and emits a `delegate` request carrying `{id, rid, args}`.
The returned request is the payload handed to the deferred `emit`. -/
def DelegatePool.delegate (s : DelegatePool) (fresh : Uuid) (id : Uuid)
    (args : List JsValue) : Except JsError (DelegatePool × DelegateRequest) :=
  if id ∉ s.delegates then
    .error (.thrown ("Unregistered delegate " ++ toString id ++ " was called"))
  else
    .ok ({ s with pool := recSet fresh Deferred.unsettled s.pool },
      { id := id, rid := fresh, args := args })

/-- `DelegatePool.handleDelegateReply(reply)`: the source runs
`this.pool[reply.rid].resolve(reply.args)` with no existence check, so a
missing entry raises a `TypeError` (reading `resolve` of `undefined`). -/
def DelegatePool.handleDelegateReply (s : DelegatePool) (reply : DelegateReply) :
    Except JsError DelegatePool :=
  match recGet reply.rid s.pool with
  | none => .error (.typeError "resolve")
  | some d =>
    .ok { s with pool := recSet reply.rid (d.resolve reply.args) s.pool }

/-- `DelegatePool.handleUnregisterRequest(req)`: deletes the delegator id from
the delegate set; the pending-call record is untouched. -/
def DelegatePool.handleUnregisterRequest (s : DelegatePool)
    (req : UnregisterRequest) : DelegatePool :=
  { s with delegates := s.delegates.erase req.delegatorId }

/-- Callee-side `DelegatorPool`: own instance id, the handler record, and the
registration-waiter record. -/
structure DelegatorPool where
  id : Uuid
  pool : List (Uuid × Handler)
  uponRegister : List (Uuid × Deferred Unit)

/-- `DelegatorPool.create(fn)`: generates a fresh function id (passed in as
`fresh`), stores the handler under it, and returns both along with the raw
handler. -/
def DelegatorPool.create (d : DelegatorPool) (fresh : Uuid) (fn : Handler) :
    DelegatorPool × Uuid × Handler :=
  ({ d with pool := recSet fresh fn d.pool }, fresh, fn)

/-- `DelegatorPool.register(delegatorId)`: stores a fresh waiter in
`uponRegister` and emits a `register` request `{delegatorId, senderId}`. -/
def DelegatorPool.register (d : DelegatorPool) (delegatorId : Uuid) :
    DelegatorPool × RegisterRequest :=
  ({ d with uponRegister := recSet delegatorId Deferred.unsettled d.uponRegister },
    { senderId := d.id, delegatorId := delegatorId })

/-- `DelegatorPool.handleDelegateRequest(req)`: looks up the handler under
`req.id` and runs `delegate.apply(null, req.args)` with no existence check —
a missing handler raises a `TypeError` (reading `apply` of `undefined`).  On
success it emits a reply `{rid: req.rid, args: result}` carrying the handler's
raw (un-awaited) return value; the pool state itself is unchanged. -/
def DelegatorPool.handleDelegateRequest (d : DelegatorPool)
    (req : DelegateRequest) : Except JsError (DelegatorPool × DelegateReply) :=
  match recGet req.id d.pool with
  | none => .error (.typeError "apply")
  | some f => .ok (d, { rid := req.rid, args := f req.args })

/-- `DelegatorPool.handleRegisterReply(req)`: runs
`this.uponRegister[req.delegatorId].resolve()` with no existence check — a
missing waiter raises a `TypeError`. -/
def DelegatorPool.handleRegisterReply (d : DelegatorPool) (req : RegisterReply) :
    Except JsError DelegatorPool :=
  match recGet req.delegatorId d.uponRegister with
  | none => .error (.typeError "resolve")
  | some w =>
    .ok { d with
      uponRegister := recSet req.delegatorId (w.resolve ()) d.uponRegister }

/-- `DelegatorPool.dispose()`: emits one `unregister` event per key of the
handler record, in record order.  The handler record itself is not cleared. -/
def DelegatorPool.dispose (d : DelegatorPool) : DelegatorPool × List Event :=
  (d, d.pool.map (fun p =>
    Event.unregisterReq { senderId := d.id, delegatorId := p.1 }))

/-- The world visible to the two constructors: one caller pool, one callee
pool, and the microtask queue of not-yet-delivered events (every `emit` in the
source goes through `queueMicrotask`). -/
structure World where
  caller : DelegatePool
  callee : DelegatorPool
  micro : List Event

/-- Issuing a call at world level: `delegate` mutates the caller pool
synchronously and appends the `delegate` event to the microtask queue; a throw
leaves the world untouched (no event is queued, no entry stored). -/
def World.delegate (w : World) (fresh id : Uuid) (args : List JsValue) :
    Except JsError (World × Uuid) :=
  match w.caller.delegate fresh id args with
  | .error e => .error e
  | .ok (c, req) =>
    .ok ({ caller := c, callee := w.callee,
           micro := w.micro ++ [Event.delegateReq req] }, req.rid)

/-- Delivering the front event of the microtask queue to its subscribers, as
wired in the two constructors: the callee pool handles `delegate` and
`@register`; the caller pool handles `@delegate` and `unregister`; `register`
has no core subscriber.  The reply emitted by `handleDelegateRequest` goes
through the deferred `emit`, hence is appended at the back of the queue. -/
def World.stepAux (caller : DelegatePool) (callee : DelegatorPool) :
    List Event → Except JsError World
  | [] => .ok { caller := caller, callee := callee, micro := [] }
  | .delegateReq req :: rest =>
    match callee.handleDelegateRequest req with
    | .error err => .error err
    | .ok (d, reply) =>
      .ok { caller := caller, callee := d,
            micro := rest ++ [Event.delegateReply reply] }
  | .delegateReply r :: rest =>
    match caller.handleDelegateReply r with
    | .error err => .error err
    | .ok c => .ok { caller := c, callee := callee, micro := rest }
  | .registerReq _ :: rest =>
    .ok { caller := caller, callee := callee, micro := rest }
  | .registerReply r :: rest =>
    match callee.handleRegisterReply r with
    | .error err => .error err
    | .ok d => .ok { caller := caller, callee := d, micro := rest }
  | .unregisterReq r :: rest =>
    .ok { caller := caller.handleUnregisterRequest r,
          callee := callee, micro := rest }

/-- One microtask turn: deliver the front event of the queue (a no-op on an
empty queue). -/
def World.step (w : World) : Except JsError World :=
  World.stepAux w.caller w.callee w.micro

/-- Running `n` microtask deliveries in sequence. -/
def World.stepN : Nat → World → Except JsError World
  | 0, w => .ok w
  | n + 1, w =>
    match w.step with
    | .error e => .error e
    | .ok w' => World.stepN n w'

/-- Delivering a list of call-reply events to the caller pool, in order: the
fold of `handleDelegateReply`, stopping at the first uncaught exception. -/
def processReplies (s : DelegatePool) : List DelegateReply → Except JsError DelegatePool
  | [] => .ok s
  | r :: rest =>
    match s.handleDelegateReply r with
    | .error e => .error e
    | .ok s' => processReplies s' rest

/-- Issuing a batch of calls against one function id, each with its own fresh
reply id and argument list: the fold of `DelegatePool.delegate`, collecting the
emitted requests, stopping at the first throw. -/
def issueCalls (s : DelegatePool) (fid : Uuid) :
    List (Uuid × List JsValue) → Except JsError (DelegatePool × List DelegateRequest)
  | [] => .ok (s, [])
  | (rid, args) :: rest =>
    match s.delegate rid fid args with
    | .error e => .error e
    | .ok (s', req) =>
      match issueCalls s' fid rest with
      | .error e => .error e
      | .ok (s'', reqs) => .ok (s'', req :: reqs)

/-! ### Concrete instances used to evaluate the model -/

/-- Example synchronous handler: doubles its single numeric argument
(the `double(x) = 2x` handler of the spec's scenarios). -/
def exDouble : Handler := fun args =>
  match args with
  | [JsValue.num x] => JsValue.num (2 * x)
  | _ => JsValue.undef

/-- Example asynchronous handler: returns a still-pending promise of `42`. -/
def exAsyncHandler : Handler := fun _ => JsValue.promise (JsValue.num 42)

/-- Example callee pool holding `exDouble` under function id `0`. -/
def exCallee : DelegatorPool :=
  { id := 99, pool := [(0, exDouble)], uponRegister := [] }

/-- Example callee pool holding the asynchronous handler under id `3`. -/
def exAsyncCallee : DelegatorPool :=
  { id := 98, pool := [(3, exAsyncHandler)], uponRegister := [] }

/-- Example callee pool with a registration waiter for id `7`. -/
def exWaitCallee : DelegatorPool :=
  { id := 97, pool := [], uponRegister := [(7, Deferred.unsettled)] }

/-- Example callee pool with nothing registered. -/
def exEmptyCallee : DelegatorPool :=
  { id := 96, pool := [], uponRegister := [] }

/-- Example caller pool with function id `0` callable and no pending calls. -/
def exCaller : DelegatePool := { delegates := {0}, pool := [] }

/-- Example caller pool with a pending call under reply id `5`. -/
def exCaller5 : DelegatePool :=
  { delegates := {0}, pool := [(5, Deferred.unsettled)] }

/-- Example caller pool with two callable targets and one pending call. -/
def exCaller2 : DelegatePool :=
  { delegates := {0, 5}, pool := [(7, Deferred.unsettled)] }

/-- Example caller pool with no callable targets. -/
def exEmptyCaller : DelegatePool := { delegates := ∅, pool := [] }

/-- Example world with nothing registered and an empty microtask queue. -/
def exEmptyWorld : World :=
  { caller := exEmptyCaller, callee := exEmptyCallee, micro := [] }

/-- Example world where id `0` is callable and handled by `exDouble`. -/
def exWorld : World := { caller := exCaller, callee := exCallee, micro := [] }

/-- The world `exWorld` right after issuing one call of `double([1])` with
fresh reply id `10`: the pending entry is stored and the request event is
queued but not yet delivered. -/
def exWorldAfter : World :=
  { caller := { delegates := {0}, pool := [(10, Deferred.unsettled)] },
    callee := exCallee,
    micro := [Event.delegateReq { id := 0, rid := 10, args := [JsValue.num 1] }] }

/-! ### Basic lemmas about record indexing and the event handlers -/

theorem recGet_recSet_self {β : Type} (k : Uuid) (v : β) (l : List (Uuid × β)) :
    recGet k (recSet k v l) = some v := by
  induction l with
  | nil => simp [recGet, recSet]
  | cons p rest ih =>
    obtain ⟨a, b⟩ := p
    by_cases h : k = a
    · simp [recSet, h, recGet]
    · simp [recSet, h, recGet, ih]

theorem recGet_recSet_ne {β : Type} {k k' : Uuid} (v : β) (l : List (Uuid × β))
    (h : k ≠ k') : recGet k (recSet k' v l) = recGet k l := by
  induction l with
  | nil => simp [recGet, recSet, h]
  | cons p rest ih =>
    obtain ⟨a, b⟩ := p
    by_cases ha : k' = a
    · subst ha
      simp [recSet, recGet, h, ih]
    · by_cases hk : k = a
      · subst hk
        simp [recSet, recGet, ha]
      · simp [recSet, recGet, ha, hk, ih]

theorem recGet_mem_keys {β : Type} {k : Uuid} {v : β} {l : List (Uuid × β)}
    (h : recGet k l = some v) : (k, v) ∈ l := by
  induction l with
  | nil => simp [recGet] at h
  | cons p rest ih =>
    obtain ⟨a, b⟩ := p
    by_cases hk : k = a
    · subst hk
      simp [recGet] at h
      simp [h]
    · simp [recGet, hk] at h
      exact List.mem_cons_of_mem _ (ih h)

theorem delegate_ok_of_mem {s : DelegatePool} {fresh id : Uuid} {args : List JsValue}
    (h : id ∈ s.delegates) :
    s.delegate fresh id args =
      .ok ({ s with pool := recSet fresh Deferred.unsettled s.pool },
        { id := id, rid := fresh, args := args }) := by
  unfold DelegatePool.delegate
  rw [if_neg (not_not_intro h)]

theorem handleDelegateReply_ok_of_mem {s : DelegatePool} {r : DelegateReply}
    {d : Deferred JsValue} (h : recGet r.rid s.pool = some d) :
    s.handleDelegateReply r =
      .ok { s with pool := recSet r.rid (d.resolve r.args) s.pool } := by
  unfold DelegatePool.handleDelegateReply
  rw [h]

theorem handleDelegateReply_inv {s s' : DelegatePool} {r : DelegateReply}
    (h : s.handleDelegateReply r = .ok s') :
    ∃ d, recGet r.rid s.pool = some d ∧
      s' = { s with pool := recSet r.rid (d.resolve r.args) s.pool } := by
  unfold DelegatePool.handleDelegateReply at h
  cases hg : recGet r.rid s.pool with
  | none => rw [hg] at h; exact absurd h (by simp)
  | some d =>
    rw [hg] at h
    injection h with h
    exact ⟨d, rfl, h.symm⟩

theorem handleDelegateReply_delegates {s s' : DelegatePool} {r : DelegateReply}
    (h : s.handleDelegateReply r = .ok s') : s'.delegates = s.delegates := by
  obtain ⟨d, _, rfl⟩ := handleDelegateReply_inv h
  rfl

theorem handleDelegateReply_frame {s s' : DelegatePool} {r : DelegateReply} {k : Uuid}
    (h : s.handleDelegateReply r = .ok s') (hk : k ≠ r.rid) :
    recGet k s'.pool = recGet k s.pool := by
  obtain ⟨d, _, rfl⟩ := handleDelegateReply_inv h
  exact recGet_recSet_ne _ _ hk

theorem handleDelegateReply_settled {s s' : DelegatePool} {r : DelegateReply} {k : Uuid}
    {v : Except JsError JsValue}
    (h : s.handleDelegateReply r = .ok s') (hk : recGet k s.pool = some ⟨some v⟩) :
    recGet k s'.pool = some ⟨some v⟩ := by
  obtain ⟨d, hd, rfl⟩ := handleDelegateReply_inv h
  by_cases hkr : k = r.rid
  · rw [hkr] at hk ⊢
    rw [hd] at hk
    injection hk with hk
    show recGet r.rid (recSet r.rid (d.resolve r.args) s.pool) = some ⟨some v⟩
    rw [recGet_recSet_self, hk]
    rfl
  · rw [show ({ s with pool := recSet r.rid (d.resolve r.args) s.pool } :
        DelegatePool).pool = recSet r.rid (d.resolve r.args) s.pool from rfl,
      recGet_recSet_ne _ _ hkr]
    exact hk

theorem handleDelegateReply_isSome {s s' : DelegatePool} {r : DelegateReply} {k : Uuid}
    (h : s.handleDelegateReply r = .ok s') (hk : recGet k s.pool ≠ none) :
    recGet k s'.pool ≠ none := by
  obtain ⟨d, hd, rfl⟩ := handleDelegateReply_inv h
  by_cases hkr : k = r.rid
  · subst hkr
    simp [recGet_recSet_self]
  · rw [recGet_recSet_ne _ _ hkr]
    exact hk

/-! ### Lemmas about batch reply processing -/

theorem processReplies_settled {rs : List DelegateReply} :
    ∀ {s s' : DelegatePool} {k : Uuid} {v : Except JsError JsValue},
      processReplies s rs = .ok s' → recGet k s.pool = some ⟨some v⟩ →
      recGet k s'.pool = some ⟨some v⟩ := by
  induction rs with
  | nil =>
    intro s s' k v h hk
    unfold processReplies at h
    injection h with h
    subst h
    exact hk
  | cons r rest ih =>
    intro s s' k v h hk
    unfold processReplies at h
    cases hr : s.handleDelegateReply r with
    | error e => rw [hr] at h; exact absurd h (by simp)
    | ok s₁ =>
      rw [hr] at h
      exact ih h (handleDelegateReply_settled hr hk)

theorem processReplies_resolves {rs : List DelegateReply} :
    ∀ s : DelegatePool,
      (rs.map DelegateReply.rid).Nodup →
      (∀ r ∈ rs, recGet r.rid s.pool = some Deferred.unsettled) →
      ∃ s', processReplies s rs = .ok s' ∧ s'.delegates = s.delegates ∧
        ∀ r ∈ rs, recGet r.rid s'.pool = some ⟨some (Except.ok r.args)⟩ := by
  induction rs with
  | nil =>
    intro s _ _
    exact ⟨s, rfl, rfl, by simp⟩
  | cons r rest ih =>
    intro s hnd hpend
    have hr : recGet r.rid s.pool = some Deferred.unsettled :=
      hpend r (List.mem_cons_self r rest)
    have hstep := handleDelegateReply_ok_of_mem hr
    have hnd₂ : (r.rid :: rest.map DelegateReply.rid).Nodup := by
      rw [List.map_cons] at hnd
      exact hnd
    have hnd' : (rest.map DelegateReply.rid).Nodup := (List.nodup_cons.mp hnd₂).2
    have hne : ∀ r' ∈ rest, r'.rid ≠ r.rid := by
      intro r' hr' heq
      exact (List.nodup_cons.mp hnd₂).1 (heq ▸ List.mem_map_of_mem DelegateReply.rid hr')
    have hpend' : ∀ r' ∈ rest,
        recGet r'.rid ({ s with
          pool := recSet r.rid (Deferred.unsettled.resolve r.args) s.pool } :
            DelegatePool).pool = some Deferred.unsettled := by
      intro r' hr'
      show recGet r'.rid (recSet r.rid (Deferred.unsettled.resolve r.args) s.pool) =
        some Deferred.unsettled
      rw [recGet_recSet_ne _ _ (hne r' hr')]
      exact hpend r' (List.mem_cons_of_mem r hr')
    obtain ⟨s', hrun, hdel, hres⟩ :=
      ih { s with pool := recSet r.rid (Deferred.unsettled.resolve r.args) s.pool }
        hnd' hpend'
    refine ⟨s', ?_, ?_, ?_⟩
    · unfold processReplies
      rw [hstep]
      exact hrun
    · rw [hdel]
    · intro r' hr'
      rcases List.mem_cons.mp hr' with hhd | htl
      · rw [hhd]
        refine processReplies_settled hrun ?_
        show recGet r.rid (recSet r.rid (Deferred.unsettled.resolve r.args) s.pool) =
          some ⟨some (Except.ok r.args)⟩
        rw [recGet_recSet_self]
        rfl
      · exact hres r' htl

/-! ### Lemmas about the world-level microtask semantics -/

theorem World.delegate_inv {w w' : World} {fresh id rid : Uuid} {args : List JsValue}
    (h : w.delegate fresh id args = .ok (w', rid)) :
    rid = fresh ∧ id ∈ w.caller.delegates ∧
    w' = { caller := { delegates := w.caller.delegates,
                       pool := recSet fresh Deferred.unsettled w.caller.pool },
           callee := w.callee,
           micro := w.micro ++
             [Event.delegateReq { id := id, rid := fresh, args := args }] } := by
  unfold World.delegate at h
  by_cases hid : id ∈ w.caller.delegates
  · rw [delegate_ok_of_mem hid] at h
    injection h with h
    injection h with h1 h2
    exact ⟨h2.symm, hid, h1.symm⟩
  · have herr : w.caller.delegate fresh id args =
        .error (.thrown ("Unregistered delegate " ++ toString id ++ " was called")) := by
      unfold DelegatePool.delegate
      rw [if_pos hid]
    rw [herr] at h
    exact absurd h (by simp)

theorem stepAux_pool_isSome {c : DelegatePool} {d : DelegatorPool} {es : List Event}
    {w' : World} {k : Uuid}
    (h : World.stepAux c d es = .ok w') (hk : recGet k c.pool ≠ none) :
    recGet k w'.caller.pool ≠ none := by
  cases es with
  | nil =>
    injection h with h
    subst h
    exact hk
  | cons e rest =>
    cases e with
    | delegateReq req =>
      simp only [World.stepAux] at h
      cases hc : d.handleDelegateRequest req with
      | error err => rw [hc] at h; exact absurd h (by simp)
      | ok pr =>
        obtain ⟨d', reply⟩ := pr
        rw [hc] at h
        injection h with h
        subst h
        exact hk
    | delegateReply r =>
      simp only [World.stepAux] at h
      cases hc : c.handleDelegateReply r with
      | error err => rw [hc] at h; exact absurd h (by simp)
      | ok c' =>
        rw [hc] at h
        injection h with h
        subst h
        exact handleDelegateReply_isSome hc hk
    | registerReq r =>
      injection h with h
      subst h
      exact hk
    | registerReply r =>
      simp only [World.stepAux] at h
      cases hc : d.handleRegisterReply r with
      | error err => rw [hc] at h; exact absurd h (by simp)
      | ok d' =>
        rw [hc] at h
        injection h with h
        subst h
        exact hk
    | unregisterReq r =>
      injection h with h
      subst h
      exact hk

theorem step_pool_isSome {w w' : World} {k : Uuid}
    (h : w.step = .ok w') (hk : recGet k w.caller.pool ≠ none) :
    recGet k w'.caller.pool ≠ none :=
  stepAux_pool_isSome h hk

theorem stepN_pool_isSome {n : Nat} : ∀ {w w' : World} {k : Uuid},
    World.stepN n w = .ok w' → recGet k w.caller.pool ≠ none →
    recGet k w'.caller.pool ≠ none := by
  induction n with
  | zero =>
    intro w w' k h hk
    injection h with h
    subst h
    exact hk
  | succ m ih =>
    intro w w' k h hk
    unfold World.stepN at h
    cases hs : w.step with
    | error e => rw [hs] at h; exact absurd h (by simp)
    | ok w₁ =>
      rw [hs] at h
      exact ih h (step_pool_isSome hs hk)

/-! ### Lemmas about batch call issuing -/

theorem issueCalls_ok {fid : Uuid} {pairs : List (Uuid × List JsValue)} :
    ∀ s : DelegatePool, fid ∈ s.delegates →
      ∃ s', issueCalls s fid pairs =
          .ok (s', pairs.map (fun p => ⟨fid, p.1, p.2⟩)) ∧
        s'.delegates = s.delegates ∧
        (∀ k, k ∉ pairs.map Prod.fst → recGet k s'.pool = recGet k s.pool) ∧
        ((pairs.map Prod.fst).Nodup →
          ∀ p ∈ pairs, recGet p.1 s'.pool = some Deferred.unsettled) := by
  induction pairs with
  | nil =>
    intro s _
    exact ⟨s, rfl, rfl, fun _ _ => rfl, fun _ p hp => absurd hp (List.not_mem_nil p)⟩
  | cons p rest ih =>
    intro s hfid
    obtain ⟨rid, args⟩ := p
    have hdel := @delegate_ok_of_mem s rid fid args hfid
    obtain ⟨s', hrun, hdelg, hframe, hpend⟩ :=
      ih { s with pool := recSet rid Deferred.unsettled s.pool } hfid
    refine ⟨s', ?_, by rw [hdelg], ?_, ?_⟩
    · unfold issueCalls
      rw [hdel]
      show (match issueCalls
            { s with pool := recSet rid Deferred.unsettled s.pool } fid rest with
          | Except.error e => Except.error e
          | Except.ok (s'', reqs) =>
            Except.ok (s'', DelegateRequest.mk fid rid args :: reqs)) =
        Except.ok (s', ((rid, args) :: rest).map (fun p => ⟨fid, p.1, p.2⟩))
      rw [hrun]
      rfl
    · intro k hk
      have hk₁ : k ∉ rest.map Prod.fst := by
        intro hmem
        exact hk (by simpa using Or.inr hmem)
      have hkr : k ≠ rid := by
        intro heq
        exact hk (by simp [heq])
      rw [hframe k hk₁]
      show recGet k (recSet rid Deferred.unsettled s.pool) = recGet k s.pool
      exact recGet_recSet_ne _ _ hkr
    · intro hnd q hq
      have hnd₂ : (rid :: rest.map Prod.fst).Nodup := by
        rw [List.map_cons] at hnd
        exact hnd
      rcases List.mem_cons.mp hq with hhd | htl
      · rw [hhd]
        have hq₁ : rid ∉ rest.map Prod.fst := (List.nodup_cons.mp hnd₂).1
        show recGet rid s'.pool = some Deferred.unsettled
        rw [hframe rid hq₁]
        show recGet rid (recSet rid Deferred.unsettled s.pool) = some Deferred.unsettled
        exact recGet_recSet_self _ _ _
      · exact hpend (List.nodup_cons.mp hnd₂).2 q htl

/-! ### Claim C1 -/

/-- C1: issuing a batch of concurrent calls against one registered function
identifier, each with its own fresh reply identifier, makes the callee produce
for every request a reply keyed by that request's own reply identifier and
carrying the handler applied to that request's own arguments; and delivering
those replies to the caller pool in any order settles each call's pending
deferred with exactly the results of its own request, never another's. -/
theorem c1_reply_correlation
    (d : DelegatorPool) (h : Handler) (fid : Uuid)
    (hreg : recGet fid d.pool = some h)
    (s : DelegatePool) (hcall : fid ∈ s.delegates)
    (pairs : List (Uuid × List JsValue))
    (hnodup : (pairs.map Prod.fst).Nodup) :
    ∃ s₁, issueCalls s fid pairs =
        .ok (s₁, pairs.map (fun p => ⟨fid, p.1, p.2⟩)) ∧
      (∀ p ∈ pairs, d.handleDelegateRequest ⟨fid, p.1, p.2⟩ =
        .ok (d, ⟨p.1, h p.2⟩)) ∧
      ∀ perm : List (Uuid × List JsValue), pairs.Perm perm →
        ∃ s₂, processReplies s₁ (perm.map (fun p => ⟨p.1, h p.2⟩)) = .ok s₂ ∧
          ∀ p ∈ pairs, recGet p.1 s₂.pool = some ⟨some (Except.ok (h p.2))⟩ := by
  obtain ⟨s₁, hissue, hdelg, hframe, hpend⟩ := issueCalls_ok s hcall
  refine ⟨s₁, hissue, ?_, ?_⟩
  · intro p hp
    unfold DelegatorPool.handleDelegateRequest
    show (match recGet fid d.pool with
      | none => (Except.error (JsError.typeError "apply") :
          Except JsError (DelegatorPool × DelegateReply))
      | some f => Except.ok (d, ({ rid := p.1, args := f p.2 } : DelegateReply))) =
      Except.ok (d, ({ rid := p.1, args := h p.2 } : DelegateReply))
    rw [hreg]
  · intro perm hperm
    have hmap : (perm.map (fun p => (⟨p.1, h p.2⟩ : DelegateReply))).map
        DelegateReply.rid = perm.map Prod.fst := by
      rw [List.map_map]
      rfl
    have hnd : ((perm.map (fun p => (⟨p.1, h p.2⟩ : DelegateReply))).map
        DelegateReply.rid).Nodup := by
      rw [hmap]
      exact ((hperm.map Prod.fst).nodup_iff).mp hnodup
    have hpend₁ : ∀ r ∈ perm.map (fun p => (⟨p.1, h p.2⟩ : DelegateReply)),
        recGet r.rid s₁.pool = some Deferred.unsettled := by
      intro r hr
      obtain ⟨p, hpmem, rfl⟩ := List.mem_map.mp hr
      exact hpend hnodup p (hperm.mem_iff.mpr hpmem)
    obtain ⟨s₂, hrun, _, hres⟩ := processReplies_resolves s₁ hnd hpend₁
    refine ⟨s₂, hrun, ?_⟩
    intro p hp
    exact hres ⟨p.1, h p.2⟩
      (List.mem_map_of_mem (fun p => (⟨p.1, h p.2⟩ : DelegateReply))
        (hperm.mem_iff.mp hp))

/-- Witness for C1 at a concrete instance: two concurrent calls against the
`double` handler with arguments `[1]` and `[2]`. -/
theorem c1_witness :
    recGet 0 exCallee.pool = some exDouble ∧ (0 ∈ exCaller.delegates) ∧
    (([((10 : Uuid), [JsValue.num 1]), (11, [JsValue.num 2])].map Prod.fst).Nodup) ∧
    (∃ s₁, issueCalls exCaller 0 [(10, [JsValue.num 1]), (11, [JsValue.num 2])] =
        .ok (s₁, [((10 : Uuid), [JsValue.num 1]), (11, [JsValue.num 2])].map
          (fun p => ⟨0, p.1, p.2⟩)) ∧
      (∀ p ∈ [((10 : Uuid), [JsValue.num 1]), (11, [JsValue.num 2])],
        exCallee.handleDelegateRequest ⟨0, p.1, p.2⟩ =
          .ok (exCallee, ⟨p.1, exDouble p.2⟩)) ∧
      ∀ perm : List (Uuid × List JsValue),
        List.Perm [((10 : Uuid), [JsValue.num 1]), (11, [JsValue.num 2])] perm →
        ∃ s₂, processReplies s₁ (perm.map (fun p => ⟨p.1, exDouble p.2⟩)) = .ok s₂ ∧
          ∀ p ∈ [((10 : Uuid), [JsValue.num 1]), (11, [JsValue.num 2])],
            recGet p.1 s₂.pool = some ⟨some (Except.ok (exDouble p.2))⟩) :=
  ⟨rfl, by decide, by decide,
    c1_reply_correlation exCallee exDouble 0 rfl exCaller (by decide) _ (by decide)⟩

/-! ### Claim C2 -/

/-- C2: calling a function identifier that is not in the callable-target set
fails immediately and synchronously with the unregistered-target error; the
throw happens before a reply identifier is generated, so no pending entry is
stored and no call-request event is queued (the error result carries no new
world state and no event). -/
theorem c2_unregistered_call_fails (w : World) (fresh id : Uuid)
    (args : List JsValue) (hid : id ∉ w.caller.delegates) :
    w.delegate fresh id args =
      .error (.thrown ("Unregistered delegate " ++ toString id ++ " was called")) := by
  have herr : w.caller.delegate fresh id args =
      .error (.thrown ("Unregistered delegate " ++ toString id ++ " was called")) := by
    unfold DelegatePool.delegate
    rw [if_pos hid]
  unfold World.delegate
  rw [herr]

/-- Witness for C2: calling id `7`, which was never registered, on the empty
world. -/
theorem c2_witness :
    ((7 : Uuid) ∉ exEmptyWorld.caller.delegates) ∧
    exEmptyWorld.delegate 5 7 [] =
      .error (.thrown ("Unregistered delegate " ++ toString (7 : Uuid) ++
        " was called")) :=
  ⟨by decide, c2_unregistered_call_fails exEmptyWorld 5 7 [] (by decide)⟩

/-! ### Claim C3 -/

/-- C3 (code bug): when a call request names a function identifier with no
registered handler, the callee's handler does NOT emit a reply carrying an
error marker; it dereferences `undefined` and raises a `TypeError`, so no reply
event of any kind is produced and the caller's pending future is never
settled. -/
theorem c3_unknown_function_crashes (d : DelegatorPool) (q : DelegateRequest)
    (h : recGet q.id d.pool = none) :
    d.handleDelegateRequest q = .error (.typeError "apply") := by
  unfold DelegatorPool.handleDelegateRequest
  rw [h]

/-- Witness for C3: a request for id `0` against a callee with no registered
functions. -/
theorem c3_witness :
    recGet (0 : Uuid) exEmptyCallee.pool = none ∧
    exEmptyCallee.handleDelegateRequest { id := 0, rid := 1, args := [] } =
      .error (.typeError "apply") :=
  ⟨rfl, c3_unknown_function_crashes exEmptyCallee { id := 0, rid := 1, args := [] } rfl⟩

/-! ### Claim C4 -/

/-- C4 (code bug): a call-reply event whose reply identifier matches no pending
call is NOT silently discarded: the caller pool's handler dereferences
`undefined` and raises a `TypeError` instead of leaving state untouched. -/
theorem c4_stale_reply_crashes (s : DelegatePool) (r : DelegateReply)
    (h : recGet r.rid s.pool = none) :
    s.handleDelegateReply r = .error (.typeError "resolve") := by
  unfold DelegatePool.handleDelegateReply
  rw [h]

/-- Witness for C4: a reply with unknown reply id `0` delivered to a caller
pool with an empty pending map. -/
theorem c4_witness :
    recGet (0 : Uuid) exEmptyCaller.pool = none ∧
    exEmptyCaller.handleDelegateReply { rid := 0, args := JsValue.num 1 } =
      .error (.typeError "resolve") :=
  ⟨rfl, c4_stale_reply_crashes exEmptyCaller { rid := 0, args := JsValue.num 1 } rfl⟩

/-! ### Claim C5 -/

/-- C5 counterexample: handling a matching reply resolves the pending deferred
but does NOT remove the entry from the pending map — after handling the reply
for id `5`, the map still contains an entry under `5`. -/
theorem c5_counterexample :
    DelegatePool.handleDelegateReply exCaller5 { rid := 5, args := JsValue.num 7 } =
      .ok { delegates := {0},
            pool := [(5, ⟨some (Except.ok (JsValue.num 7))⟩)] } ∧
    recGet 5 [((5 : Uuid), (⟨some (Except.ok (JsValue.num 7))⟩ : Deferred JsValue))] ≠
      none := by
  constructor
  · rfl
  · simp [recGet]

/-- C5 amended: handling a call-reply whose identifier matches a pending call
resolves that call's deferred with the reply's results, but the entry stays in
the pending map (now settled); the callable-target set and every other pending
entry are unchanged. -/
theorem c5_resolve_keeps_entry (s : DelegatePool) (r : DelegateReply)
    (hd : recGet r.rid s.pool = some Deferred.unsettled) :
    ∃ s', s.handleDelegateReply r = .ok s' ∧
      recGet r.rid s'.pool = some ⟨some (Except.ok r.args)⟩ ∧
      s'.delegates = s.delegates ∧
      ∀ k, k ≠ r.rid → recGet k s'.pool = recGet k s.pool := by
  refine ⟨_, handleDelegateReply_ok_of_mem hd, ?_, rfl, ?_⟩
  · show recGet r.rid (recSet r.rid (Deferred.unsettled.resolve r.args) s.pool) =
      some ⟨some (Except.ok r.args)⟩
    rw [recGet_recSet_self]
    rfl
  · intro k hk
    show recGet k (recSet r.rid (Deferred.unsettled.resolve r.args) s.pool) =
      recGet k s.pool
    exact recGet_recSet_ne _ _ hk

/-- Witness for the amended C5 at the concrete pool with pending id `5`. -/
theorem c5_witness :
    recGet (5 : Uuid) exCaller5.pool = some Deferred.unsettled ∧
    (∃ s', exCaller5.handleDelegateReply { rid := 5, args := JsValue.num 7 } = .ok s' ∧
      recGet 5 s'.pool = some ⟨some (Except.ok (JsValue.num 7))⟩ ∧
      s'.delegates = exCaller5.delegates ∧
      ∀ k, k ≠ (5 : Uuid) → recGet k s'.pool = recGet k exCaller5.pool) :=
  ⟨rfl, c5_resolve_keeps_entry exCaller5 { rid := 5, args := JsValue.num 7 } rfl⟩

/-! ### Claim C6 -/

/-- C6 counterexample: `dispose` emits the unregistration notice for the one
registered id, but does NOT clear the function map — the handler for id `0` is
still registered afterwards, and a subsequent call request for it is executed
normally (here `double(21) = 42`) instead of being treated as an unregistered
target. -/
theorem c6_counterexample :
    (DelegatorPool.dispose exCallee).2 =
      [Event.unregisterReq { senderId := 99, delegatorId := 0 }] ∧
    recGet 0 (DelegatorPool.dispose exCallee).1.pool = some exDouble ∧
    (DelegatorPool.dispose exCallee).1.handleDelegateRequest
        { id := 0, rid := 1, args := [JsValue.num 21] } =
      .ok ((DelegatorPool.dispose exCallee).1, { rid := 1, args := JsValue.num 42 }) :=
  ⟨rfl, rfl, rfl⟩

/-- C6 amended: `dispose` emits one unregistration-notice event
`{functionId, senderId: ownInstanceId}` for every currently registered function
identifier, but it does not clear the registry's function map: the registry
state is unchanged, and a call request subsequently received for a
previously-registered identifier is still executed by its handler. -/
theorem c6_dispose_broadcasts_only (d : DelegatorPool) :
    (∀ fid h, recGet fid d.pool = some h →
      Event.unregisterReq { senderId := d.id, delegatorId := fid } ∈ (d.dispose).2) ∧
    (d.dispose).1 = d ∧
    ∀ q, ((d.dispose).1).handleDelegateRequest q = d.handleDelegateRequest q := by
  refine ⟨?_, rfl, fun q => rfl⟩
  intro fid h hf
  exact List.mem_map_of_mem
    (fun p => Event.unregisterReq { senderId := d.id, delegatorId := p.1 })
    (recGet_mem_keys hf)

/-- Witness for the amended C6 at the concrete callee holding id `0`. -/
theorem c6_witness :
    Event.unregisterReq { senderId := 99, delegatorId := 0 } ∈
      (DelegatorPool.dispose exCallee).2 :=
  (c6_dispose_broadcasts_only exCallee).1 0 exDouble rfl

/-! ### Claim C7 -/

/-- C7 counterexample: with an asynchronous handler (one returning a pending
promise), the emitted call-reply carries the pending computation itself — a
value for which `isPromise` is `true` — not the handler's settled result. -/
theorem c7_counterexample :
    exAsyncCallee.handleDelegateRequest { id := 3, rid := 4, args := [] } =
      .ok (exAsyncCallee, { rid := 4, args := JsValue.promise (JsValue.num 42) }) ∧
    JsValue.isPromise (JsValue.promise (JsValue.num 42)) = true :=
  ⟨rfl, rfl⟩

/-- C7 amended: for every call request whose identifier has a registered
handler, the emitted call-reply event carries the handler's raw return value,
without awaiting it — when the handler is asynchronous the reply carries the
still-pending computation rather than its settled result values. -/
theorem c7_reply_not_awaited (d : DelegatorPool) (q : DelegateRequest)
    (f : Handler) (h : recGet q.id d.pool = some f) :
    d.handleDelegateRequest q = .ok (d, { rid := q.rid, args := f q.args }) := by
  unfold DelegatorPool.handleDelegateRequest
  rw [h]

/-- Witness for the amended C7 at the asynchronous handler under id `3`. -/
theorem c7_witness :
    recGet (3 : Uuid) exAsyncCallee.pool = some exAsyncHandler ∧
    exAsyncCallee.handleDelegateRequest { id := 3, rid := 4, args := [] } =
      .ok (exAsyncCallee, { rid := 4, args := exAsyncHandler [] }) :=
  ⟨rfl, c7_reply_not_awaited exAsyncCallee { id := 3, rid := 4, args := [] }
    exAsyncHandler rfl⟩

/-! ### Claim C8 -/

/-- C8: handling an unregistration notice removes exactly the noticed function
identifier from the callable-target set and changes nothing else: the pending
map is untouched (every pending call, settled or not, stays exactly as it was)
and every other callable-target entry keeps its membership. -/
theorem c8_unregister_frame (s : DelegatePool) (r : UnregisterRequest) :
    (s.handleUnregisterRequest r).pool = s.pool ∧
    r.delegatorId ∉ (s.handleUnregisterRequest r).delegates ∧
    ∀ k, k ≠ r.delegatorId →
      ((k ∈ (s.handleUnregisterRequest r).delegates) ↔ k ∈ s.delegates) := by
  refine ⟨rfl, ?_, ?_⟩
  · exact Finset.not_mem_erase _ _
  · intro k hk
    simp [DelegatePool.handleUnregisterRequest, Finset.mem_erase, hk]

/-- Witness for C8: unregistering id `0` from the pool that can call `0` and
`5` and has a pending call under reply id `7`. -/
theorem c8_witness :
    (exCaller2.handleUnregisterRequest { senderId := 99, delegatorId := 0 }).pool =
      exCaller2.pool ∧
    ((0 : Uuid) ∉
      (exCaller2.handleUnregisterRequest { senderId := 99, delegatorId := 0 }).delegates) ∧
    (((5 : Uuid) ∈
      (exCaller2.handleUnregisterRequest { senderId := 99, delegatorId := 0 }).delegates) ↔
      (5 : Uuid) ∈ exCaller2.delegates) := by
  have h := c8_unregister_frame exCaller2 { senderId := 99, delegatorId := 0 }
  exact ⟨h.1, h.2.1, h.2.2 5 (by decide)⟩

/-! ### Claim C9 -/

/-- C9 (code bug): a registration acknowledgment with no matching Registration
Waiter is NOT ignored: the callee pool's handler dereferences `undefined` and
raises a `TypeError`.  (When a waiter does exist, it is resolved as the claim
says.) -/
theorem c9_unmatched_ack_crashes (d : DelegatorPool) (r : RegisterReply)
    (h : recGet r.delegatorId d.uponRegister = none) :
    d.handleRegisterReply r = .error (.typeError "resolve") := by
  unfold DelegatorPool.handleRegisterReply
  rw [h]

/-- Witness for C9: an acknowledgment for id `0` against a callee with no
waiters. -/
theorem c9_witness :
    recGet (0 : Uuid) exEmptyCallee.uponRegister = none ∧
    exEmptyCallee.handleRegisterReply { delegatorId := 0 } =
      .error (.typeError "resolve") :=
  ⟨rfl, c9_unmatched_ack_crashes exEmptyCallee { delegatorId := 0 } rfl⟩

/-! ### Claim C10 -/

/-- C10: a successful call stores its Pending Call in the pending map
synchronously, while the call-request event is only appended to the microtask
queue (delivery is deferred); and the entry stays present through every
subsequent sequence of microtask deliveries, so no point at which a matching
reply could be produced or handled can precede the pending entry's
existence. -/
theorem c10_pending_before_emit {w w' : World} {fresh id rid : Uuid}
    {args : List JsValue}
    (h : w.delegate fresh id args = .ok (w', rid)) :
    recGet rid w'.caller.pool = some Deferred.unsettled ∧
    w'.micro = w.micro ++ [Event.delegateReq { id := id, rid := rid, args := args }] ∧
    ∀ n w'', World.stepN n w' = .ok w'' → recGet rid w''.caller.pool ≠ none := by
  obtain ⟨hrid, hid, hw⟩ := World.delegate_inv h
  subst hw
  rw [hrid]
  refine ⟨?_, rfl, ?_⟩
  · show recGet fresh (recSet fresh Deferred.unsettled w.caller.pool) =
      some Deferred.unsettled
    exact recGet_recSet_self _ _ _
  · intro n w'' hn
    refine stepN_pool_isSome hn ?_
    show recGet fresh (recSet fresh Deferred.unsettled w.caller.pool) ≠ none
    rw [recGet_recSet_self]
    simp

/-- Witness for C10: one call of `double([1])` on the world where id `0` is
callable; the pending entry for reply id `10` exists while the request still
sits undelivered in the microtask queue, and survives any number of turns. -/
theorem c10_witness :
    exWorld.delegate 10 0 [JsValue.num 1] = .ok (exWorldAfter, 10) ∧
    recGet 10 exWorldAfter.caller.pool = some Deferred.unsettled ∧
    ∀ n w'', World.stepN n exWorldAfter = .ok w'' →
      recGet 10 w''.caller.pool ≠ none := by
  have hd : exWorld.delegate 10 0 [JsValue.num 1] = .ok (exWorldAfter, 10) := rfl
  have h := c10_pending_before_emit hd
  exact ⟨hd, h.1, h.2.2⟩

end DelegatorSpec
